import Mathlib

/-!
Verification development for the `lift` provisioning pipeline
(`pkg/lift/execute.go`).  Each Go step function is shallowly embedded as a
Lean function from its configuration inputs and an *environment* (the
outcomes of its external calls: commands run, services controlled,
downloads, file writes) to the pair of
  * the trace of external effects the step issues, in order, and
  * the Go `error` result (`none` = `nil`, `some msg` = a non-nil error).

External collaborators that are not part of the source file
(`doService`, `parseConfigFile`, `generateFileFromTemplate`,
`openOrCreate`, `downloadFile`) are represented by trace events and
environment-supplied outcomes; `parseConfigFile`'s algorithm, which the
claims about the Directive Patcher need, is modelled from the spec.
-/

/-- A service-control action, mirroring the `START`/`STOP`/`RESTART`
constants used with `doService`. -/
inductive SvcAction where
  | START
  | STOP
  | RESTART
deriving DecidableEq, Repr

/-- One externally observable effect issued by a provisioning step. -/
inductive Event where
  /-- `exec.Command(name, args...).Run()` -/
  | execCmd (name : String) (args : List String)
  /-- `exec.Command(name, args...).Output()` -/
  | execOutput (name : String) (args : List String)
  /-- `doService(name, action)` request to the init system. -/
  | service (name : String) (action : SvcAction)
  /-- `generateFileFromTemplate(tmpl, data)` rendering a named template. -/
  | renderTemplate (tmpl : String)
  /-- `parseConfigFile(path, delim, kv)` patching a config file in place. -/
  | patchFile (path : String) (delim : String)
  /-- appending a string to a file opened via `openOrCreate(path)`. -/
  | fileAppend (path : String) (content : String)
  /-- `ioutil.WriteFile(path, data, perm)`. -/
  | fileWrite (path : String) (data : List Char) (perm : Nat)
  /-- `os.MkdirAll(filepath.Dir(path), 0711)`: create the parent
  directories of `path`. -/
  | mkdirParents (path : String)
  /-- `downloadFile(url)`. -/
  | download (url : String)
  /-- a debug/info log line (used where the Go code logs an error and
  deliberately continues). -/
  | logError (msg : String)
  /-- `time.Sleep` of the given number of seconds. -/
  | sleep (seconds : Nat)
  /-- starting the external process (`cmd.Start()`). -/
  | procStart (name : String)
  /-- writing bytes to the process's stdin pipe (`writer.Write`). -/
  | pipeWrite (content : String)
  /-- closing the stdin pipe writer (`writer.Close()`). -/
  | pipeClose
  /-- waiting for the external process to exit (`cmd.Wait()`). -/
  | procWait (name : String)
deriving DecidableEq, Repr

/-- A Go `error` value: `none` is `nil`. -/
abbrev GoErr := Option String

/-- Result of a step: its effect trace and its returned error. -/
abbrev StepResult := List Event × GoErr

/-! ## setHostname (execute.go lines 27–51) -/

/-- Environment for `setHostname`: outcomes of its two commands and the
hosts-file append. -/
structure HostnameEnv where
  hostnameRun : GoErr
  setupHostnameRun : GoErr
  openHosts : GoErr
  writeHosts : GoErr
deriving Repr

/-- The characters before the first `.`; the whole list when there is
none. `strings.Split(s, ".")[0]` is the string of these characters. -/
def beforeDot : List Char → List Char
  | [] => []
  | c :: cs => if c = '.' then [] else c :: beforeDot cs

/-- `strings.Split(s, ".")[0]` (execute.go:29): the text before the
first `.` of `s`, or all of `s` when it has no `.`. -/
def shortName (s : String) : String :=
  String.mk (beforeDot s.data)

/-- Shallow embedding of `(l *Lift) setHostname` (execute.go:27–51):
if the configured hostname is non-empty, take the text before the first
`.` as the short name, run `hostname <short>`, run
`setup-hostname -n <short>`, and append
`"127.0.0.1\t<fqdn> <short>\n"` to `/etc/hosts`. -/
def setHostname (hostName : String) (env : HostnameEnv) : StepResult :=
  if hostName = "" then ([], none)
  else
    let host := shortName hostName
    let t1 := [Event.execCmd "hostname" [host]]
    match env.hostnameRun with
    | some e => (t1, some e)
    | none =>
      let t2 := t1 ++ [Event.execCmd "setup-hostname" ["-n", host]]
      match env.setupHostnameRun with
      | some e => (t2, some e)
      | none =>
        match env.openHosts with
        | some e => (t2, some e)
        | none =>
          let line := "127.0.0.1\t" ++ hostName ++ " " ++ host ++ "\n"
          let t3 := t2 ++ [Event.fileAppend "/etc/hosts" line]
          match env.writeHosts with
          | some e => (t3, some e)
          | none => (t3, none)

/-! ## mtaSetup (execute.go lines 54–79) -/

/-- Environment for `mtaSetup`. -/
structure MTAEnv where
  apkAdd : GoErr
  render : Except String String
  mvConf : GoErr
deriving Repr

/-- Shallow embedding of `(l *Lift) mtaSetup` (execute.go:54–79): guard
`l.Data.MTA == nil`; otherwise `apk add ssmtp`, render `ssmtp.conf` from
its template, and `mv` it into `/etc/ssmtp/ssmtp.conf`. The MTA section
is abstracted to `Option Unit` since only presence is branched on. -/
def mtaSetup (mta : Option Unit) (env : MTAEnv) : StepResult :=
  match mta with
  | none => ([], none)
  | some _ =>
    let t1 := [Event.execCmd "apk" ["add", "ssmtp"]]
    match env.apkAdd with
    | some e => (t1, some e)
    | none =>
      let t2 := t1 ++ [Event.renderTemplate "ssmtp.conf"]
      match env.render with
      | .error e => (t2, some e)
      | .ok ssmtp =>
        let t3 := t2 ++ [Event.execCmd "mv" [ssmtp, "/etc/ssmtp/ssmtp.conf"]]
        match env.mvConf with
        | some e => (t3, some e)
        | none => (t3, none)

/-! ## addSSHKeys and sshdSetup (execute.go lines 226–237, 280–294) -/

/-- Environment for `addSSHKeys`: the outcome of opening
`/root/.ssh/authorized_keys` and of each key's write. -/
structure KeysEnv where
  openAK : GoErr
  writeKey : String → GoErr

/-- Trace/result of appending the keys one by one, stopping at the first
write error (execute.go:287–291). -/
def writeKeys (env : KeysEnv) : List String → StepResult
  | [] => ([], none)
  | key :: rest =>
    let ev := Event.fileAppend "/root/.ssh/authorized_keys" (key ++ "\n")
    match env.writeKey key with
    | some e => ([ev], some e)
    | none =>
      let (t, r) := writeKeys env rest
      (ev :: t, r)

/-- Shallow embedding of `(l *Lift) addSSHKeys` (execute.go:280–294):
no-op when the key list is empty (or nil); otherwise open-or-create the
authorized-keys file and append each key followed by a newline. -/
def addSSHKeys (keys : List String) (env : KeysEnv) : StepResult :=
  if keys.isEmpty then ([], none)
  else
    match env.openAK with
    | some e => ([], some e)
    | none => writeKeys env keys

/-- Environment for `sshdSetup`: the outcome of the config patch and of
the `sshd` service restart, plus the key-writing environment. -/
structure SSHDEnv where
  patchConfig : GoErr
  keysEnv : KeysEnv
  restart : GoErr

/-- Shallow embedding of `(l *Lift) sshdSetup` (execute.go:226–237):
patch `/etc/ssh/sshd_config` with delimiter `" "` via `parseConfigFile`,
append the configured keys via `addSSHKeys`, then restart the `sshd`
service; each sub-step's error is returned immediately. -/
def sshdSetup (keys : List String) (env : SSHDEnv) : StepResult :=
  let t1 := [Event.patchFile "/etc/ssh/sshd_config" " "]
  match env.patchConfig with
  | some e => (t1, some e)
  | none =>
    let (tk, rk) := addSSHKeys keys env.keysEnv
    match rk with
    | some e => (t1 ++ tk, some e)
    | none =>
      let t2 := t1 ++ tk ++ [Event.service "sshd" SvcAction.RESTART]
      match env.restart with
      | some e => (t2, some e)
      | none => (t2, none)

/-! ## rootPasswdSetup (execute.go lines 204–223) -/

/-- Shallow embedding of `(l *Lift) rootPasswdSetup` (execute.go:204–223):
guard "password non-empty"; start `chpasswd` with a pipe on stdin, write
`"root:<password>\n"`, close the writer, then `Wait()` for the process;
the step returns the `Wait` outcome (`waitErr`). The `Start()` return
value is discarded by the Go code, so the environment carries only the
`Wait` outcome. -/
def rootPasswdSetup (rootPasswd : String) (waitErr : GoErr) : StepResult :=
  if rootPasswd = "" then ([], none)
  else
    let line := "root:" ++ rootPasswd ++ "\n"
    ([Event.procStart "chpasswd", Event.pipeWrite line, Event.pipeClose,
      Event.procWait "chpasswd"],
     waitErr)

/-! ## setupAPK (execute.go lines 345–389) -/

/-- Environment for `setupAPK`. -/
structure APKEnv where
  renderRepos : Except String String
  mvRepos : GoErr
  update : GoErr
  upgrade : GoErr
  apkDel : String → GoErr
  apkAdd : String → GoErr

/-- Trace/result of running one `apk <verb> <pkg>` command per package,
stopping at the first error (execute.go:372–387). -/
def apkEach (verb : String) (res : String → GoErr) : List String → StepResult
  | [] => ([], none)
  | p :: rest =>
    let ev := Event.execCmd "apk" [verb, p]
    match res p with
    | some e => ([ev], some e)
    | none =>
      let (t, r) := apkEach verb res rest
      (ev :: t, r)

/-- The Packages section fields used by `setupAPK`. -/
structure Packages where
  update : Bool
  upgrade : Bool
  install : List String
  uninstall : List String
deriving Repr

/-- Shallow embedding of `(l *Lift) setupAPK` (execute.go:345–389):
render the repositories template and `mv` it to `/etc/apk/repositories`;
then, conditionally, `apk update` and `apk upgrade`; then `apk del` each
package of `Uninstall` in order; then `apk add` each package of
`Install` in order; first error is returned. -/
def setupAPK (pk : Packages) (env : APKEnv) : StepResult :=
  let t0 := [Event.renderTemplate "repositories"]
  match env.renderRepos with
  | .error e => (t0, some e)
  | .ok rfile =>
    let t1 := t0 ++ [Event.execCmd "mv" [rfile, "/etc/apk/repositories"]]
    match env.mvRepos with
    | some e => (t1, some e)
    | none =>
      let tu := if pk.update then [Event.execCmd "apk" ["update"]] else []
      match (if pk.update then env.update else none) with
      | some e => (t1 ++ tu, some e)
      | none =>
        let tg := if pk.upgrade then [Event.execCmd "apk" ["upgrade"]] else []
        match (if pk.upgrade then env.upgrade else none) with
        | some e => (t1 ++ tu ++ tg, some e)
        | none =>
          let (td, rd) := apkEach "del" env.apkDel pk.uninstall
          match rd with
          | some e => (t1 ++ tu ++ tg ++ td, some e)
          | none =>
            let (ta, ra) := apkEach "add" env.apkAdd pk.install
            (t1 ++ tu ++ tg ++ td ++ ta, ra)

/-! ## Substring search (models `strings.Contains` / `strings.SplitN`) -/

/-- Split `l` at the first occurrence of `D`: `some (a, b)` when
`l = a ++ D ++ b` with the occurrence of `D` earliest, `none` when `D`
does not occur in `l`. Models splitting a line on the first occurrence
of a delimiter (`strings.SplitN(l, D, 2)`), and occurrence testing
(`strings.Contains l D = (splitFirst D l).isSome`). -/
def splitFirst (D : List Char) : List Char → Option (List Char × List Char)
  | [] => if D = [] then some ([], []) else none
  | c :: cs =>
    if D.isPrefixOf (c :: cs) then some ([], (c :: cs).drop D.length)
    else
      match splitFirst D cs with
      | some (a, b) => some (c :: a, b)
      | none => none

/-- `strings.Contains hay needle`. -/
def containsSub (needle hay : List Char) : Bool :=
  (splitFirst needle hay).isSome

/-! ## diskSetup (execute.go lines 85–159) -/

/-- Environment for `diskSetup`: the process list (`ps.Processes`,
executable names), the mount points returned by `mount.GetMounts`
(whose error the Go code ignores), the outcome of the `setup-disk`
command, and the `cat /proc/swap` output. Outcomes of the docker
stop/start, the `umount`s and `swapon` are absent because the Go code
discards them (`_ =`). -/
structure DiskEnv where
  procs : Except String (List String)
  mounts : List String
  setupDisk : GoErr
  catSwap : Except String String

/-- Whether a process-list entry counts as a docker process
(execute.go:102): its lower-cased executable name contains `"docker"`. -/
def isDockerProc (p : String) : Bool :=
  containsSub "docker".data (p.data.map Char.toLower)

/-- Shallow embedding of `(l *Lift) diskSetup` (execute.go:85–159):
guard "scratch disk non-empty"; sleep, list processes (errors are
fatal), detect docker; if detected, best-effort stop the docker service
and sleep; `umount` every mount point containing `/var` (best-effort);
run `setup-disk -q -m data <disk>` (fatal on error); if docker was
detected, best-effort start it again; read `/proc/swap` (a read error
ends the step with `nil`), and if the scratch disk is not listed,
best-effort `swapon -a`. -/
def diskSetup (scratchDisk : String) (env : DiskEnv) : StepResult :=
  if scratchDisk = "" then ([], none)
  else
    let t1 := [Event.sleep 3]
    match env.procs with
    | .error e => (t1, some e)
    | .ok procs =>
      let dockerPresent := procs.any isDockerProc
      let t2 := t1 ++
        (if dockerPresent then [Event.service "docker" SvcAction.STOP, Event.sleep 2]
         else [])
      let t3 := t2 ++
        ((env.mounts.filter (fun m => containsSub "/var".data m.data)).map
          (fun m => Event.execCmd "umount" [m]))
      let t4 := t3 ++ [Event.execCmd "setup-disk" ["-q", "-m", "data", scratchDisk]]
      match env.setupDisk with
      | some e => (t4, some e)
      | none =>
        let t5 := t4 ++
          (if dockerPresent then [Event.service "docker" SvcAction.START] else [])
        let t6 := t5 ++ [Event.execOutput "cat" ["/proc/swap"]]
        match env.catSwap with
        | .error _ => (t6, none)
        | .ok out =>
          if ¬ containsSub scratchDisk.data out.data then
            (t6 ++ [Event.execCmd "swapon" ["-a"]], none)
          else (t6, none)

/-! ## createFiles (execute.go lines 409–443) -/

/-- A WriteFiles descriptor: `{Path, Permissions, Content, ContentURL,
Owner}`. -/
structure WriteFile where
  path : String
  permissions : String
  content : String
  contentURL : String
  owner : String
deriving Repr

/-- Per-descriptor environment for `createFiles`: outcomes of the
directory creation, the URL download, the content write (whose failure
the Go code only logs), and the `chown`. -/
structure FileEnv where
  mkdir : GoErr
  download : Except String (List Char)
  write : GoErr
  chown : GoErr

/-- Whether a character is an octal digit. -/
def isOctDigit (c : Char) : Bool := '0' ≤ c && c ≤ '7'

/-- Go's `strconv.ParseUint(s, 8, 32)`: `some` of the value when `s` is
a non-empty string of octal digits whose value fits in 32 bits, `none`
(an error) otherwise. -/
def parseUintOct32 (s : String) : Option Nat :=
  if s.data = [] then none
  else if s.data.all isOctDigit then
    let v := s.data.foldl (fun a c => a * 8 + (c.toNat - '0'.toNat)) 0
    if v < 2 ^ 32 then some v else none
  else none

/-- Processing of one descriptor (the body of the loop in
execute.go:410–441): parse the permissions (fatal on error), create the
parent directories (fatal on error), resolve the data — inline content
if non-empty, else a download if a URL is set (fatal on error), else
empty —, write the file (an error is logged only), and, when an owner
is set, `chown` (fatal on error). -/
def createFile1 (wf : WriteFile) (env : FileEnv) : StepResult :=
  match parseUintOct32 wf.permissions with
  | none => ([], some "Error reading permissions")
  | some perm =>
    let t1 := [Event.mkdirParents wf.path]
    match env.mkdir with
    | some _ => (t1, some "Error creating directory")
    | none =>
      let resolved : List Event × Except String (List Char) :=
        if wf.content ≠ "" then ([], .ok wf.content.data)
        else if wf.contentURL ≠ "" then
          ([Event.download wf.contentURL], env.download)
        else ([], .ok [])
      match resolved with
      | (td, .error e) => (t1 ++ td, some e)
      | (td, .ok data) =>
        let t2 := t1 ++ td ++ [Event.fileWrite wf.path data perm]
        let t3 := t2 ++
          (match env.write with
           | some e => [Event.logError e]
           | none => [])
        if wf.owner ≠ "" then
          let t4 := t3 ++ [Event.execCmd "chown" [wf.owner, wf.path]]
          match env.chown with
          | some e => (t4, some e)
          | none => (t4, none)
        else (t3, none)

/-- Shallow embedding of `(l *Lift) createFiles` (execute.go:409–443):
process the descriptors in order, stopping at the first returned
error. Each descriptor is paired with the outcomes of its own external
calls. -/
def createFiles : List (WriteFile × FileEnv) → StepResult
  | [] => ([], none)
  | (wf, env) :: rest =>
    let (t, r) := createFile1 wf env
    match r with
    | some e => (t, some e)
    | none =>
      let (t', r') := createFiles rest
      (t ++ t', r')

/-! ## Directive Patcher (`parseConfigFile`)

The body of `parseConfigFile` is not part of this source file (only its
call site, execute.go:227, is); the algorithm below is modelled from the
spec. Lines are lists of characters; a file is a list of lines. -/

/-- A line of a config file. -/
abbrev Line := List Char

/-- Association lookup of a directive key in the desired mapping. -/
def lookupKV (k : Line) : List (Line × Line) → Option Line
  | [] => none
  | (k', v) :: rest => if k' = k then some v else lookupKV k rest

/-- Modelled from the spec: the per-line decision of the Directive
Patcher (`parseConfigFile`). A non-empty line is split on the first
occurrence of the delimiter into (directive, rest); the line is
rewritten exactly when the directive is a key of `desired` that has not
been applied yet, and then the key and its desired value are returned. -/
def lineMatch (D : Line) (desired : List (Line × Line)) (applied : List Line)
    (l : Line) : Option (Line × Line) :=
  if l = [] then none
  else
    match splitFirst D l with
    | none => none
    | some (dir, _) =>
      if dir ∈ applied then none
      else
        match lookupKV dir desired with
        | some v => some (dir, v)
        | none => none

/-- The replacement line written for a desired pair:
`directive ++ delimiter ++ value`. -/
def patchedLine (D : Line) (kv : Line × Line) : Line :=
  kv.1 ++ D ++ kv.2

/-- Modelled from the spec: the scan phase of the Directive Patcher —
each line is either rewritten in place (and its key marked applied) or
copied unchanged; returns the rewritten lines and the final applied-key
set. -/
def patchScan (D : Line) (desired : List (Line × Line)) :
    List Line → List Line → List Line × List Line
  | [], applied => ([], applied)
  | l :: ls, applied =>
    match lineMatch D desired applied l with
    | some kv =>
      (patchedLine D kv :: (patchScan D desired ls (kv.1 :: applied)).1,
       (patchScan D desired ls (kv.1 :: applied)).2)
    | none =>
      (l :: (patchScan D desired ls applied).1,
       (patchScan D desired ls applied).2)

/-- Modelled from the spec: the Directive Patcher (`parseConfigFile`) on
file contents — scan the existing lines, then append a replacement line
for every desired key that was not applied during the scan. -/
def patchLines (D : Line) (desired : List (Line × Line)) (lines : List Line) :
    List Line :=
  (patchScan D desired lines []).1 ++
    (desired.filter fun kv =>
      decide (kv.1 ∉ (patchScan D desired lines []).2)).map (patchedLine D)

/-! ## Theorems -/

/-- If every per-package command succeeds, `apkEach` issues exactly one
`apk <verb> <p>` per package, in list order, and returns `nil`. -/
theorem apkEach_ok (verb : String) (res : String → GoErr) (ps : List String)
    (h : ∀ p ∈ ps, res p = none) :
    apkEach verb res ps =
      (ps.map fun p => Event.execCmd "apk" [verb, p], none) := by
  induction ps with
  | nil => rfl
  | cons p rest ih =>
    have hp : res p = none := h p (by simp)
    have hrest := ih (fun q hq => h q (by simp [hq]))
    simp [apkEach, hp, hrest]

/-- C3: with `Update = true`, `Upgrade = true` and all external calls
succeeding, the package step issues exactly: render + install the
repositories file, `apk update`, `apk upgrade`, one `apk del` per
`Uninstall` entry in order, then one `apk add` per `Install` entry in
order — nothing else — and returns `nil`; in particular uninstalls
precede installs. -/
theorem setupAPK_order (pk : Packages) (env : APKEnv) (rfile : String)
    (hr : env.renderRepos = .ok rfile) (hm : env.mvRepos = none)
    (hu : env.update = none) (hg : env.upgrade = none)
    (hd : ∀ p ∈ pk.uninstall, env.apkDel p = none)
    (ha : ∀ p ∈ pk.install, env.apkAdd p = none)
    (h1 : pk.update = true) (h2 : pk.upgrade = true) :
    setupAPK pk env =
      ([Event.renderTemplate "repositories",
        Event.execCmd "mv" [rfile, "/etc/apk/repositories"],
        Event.execCmd "apk" ["update"],
        Event.execCmd "apk" ["upgrade"]]
        ++ pk.uninstall.map (fun p => Event.execCmd "apk" ["del", p])
        ++ pk.install.map (fun p => Event.execCmd "apk" ["add", p]),
       none) := by
  simp [setupAPK, hr, hm, hu, hg, h1, h2,
    apkEach_ok _ _ _ hd, apkEach_ok _ _ _ ha]

/-- Witness for C3 at the claim's concrete input. -/
theorem setupAPK_order_witness :
    setupAPK ⟨true, true, ["a", "b"], ["c"]⟩
      ⟨.ok "repos.tmp", none, none, none, fun _ => none, fun _ => none⟩ =
      ([Event.renderTemplate "repositories",
        Event.execCmd "mv" ["repos.tmp", "/etc/apk/repositories"],
        Event.execCmd "apk" ["update"],
        Event.execCmd "apk" ["upgrade"],
        Event.execCmd "apk" ["del", "c"],
        Event.execCmd "apk" ["add", "a"],
        Event.execCmd "apk" ["add", "b"]],
       none) := by
  have h := setupAPK_order ⟨true, true, ["a", "b"], ["c"]⟩
    ⟨.ok "repos.tmp", none, none, none, fun _ => none, fun _ => none⟩ "repos.tmp"
    rfl rfl rfl rfl (fun p _ => rfl) (fun p _ => rfl) rfl rfl
  exact h.trans (by decide)

/-- C4: for every non-empty hostname, with all external calls
succeeding, the hostname step runs `hostname <short>` and
`setup-hostname -n <short>` where `<short>` is the text before the first
`.`, and appends exactly `"127.0.0.1\t<fqdn> <short>\n"` to
`/etc/hosts`. -/
theorem setHostname_spec (hostName : String) (env : HostnameEnv)
    (h : hostName ≠ "")
    (h1 : env.hostnameRun = none) (h2 : env.setupHostnameRun = none)
    (h3 : env.openHosts = none) (h4 : env.writeHosts = none) :
    setHostname hostName env =
      ([Event.execCmd "hostname" [shortName hostName],
        Event.execCmd "setup-hostname" ["-n", shortName hostName],
        Event.fileAppend "/etc/hosts"
          ("127.0.0.1\t" ++ hostName ++ " " ++ shortName hostName ++ "\n")],
       none) := by
  simp [setHostname, h, h1, h2, h3, h4]

/-- Witness for C4 at the claim's concrete input
`"web01.example.com"`: the short name is `"web01"` and the appended
line is exactly `"127.0.0.1\tweb01.example.com web01\n"`. -/
theorem setHostname_spec_witness :
    setHostname "web01.example.com" ⟨none, none, none, none⟩ =
      ([Event.execCmd "hostname" ["web01"],
        Event.execCmd "setup-hostname" ["-n", "web01"],
        Event.fileAppend "/etc/hosts" "127.0.0.1\tweb01.example.com web01\n"],
       none) := by
  have h := setHostname_spec "web01.example.com" ⟨none, none, none, none⟩
    (by decide) rfl rfl rfl rfl
  exact h.trans (by decide)

/-- C9: with a non-empty password, the root-password step's trace is
exactly: start `chpasswd`, write the full line `"root:<password>\n"` to
the stdin pipe, close the pipe writer, wait for the process — in that
order, so the close happens only after the full credential line is
written and the wait precedes returning — and the step's result is
exactly the process's exit outcome. -/
theorem rootPasswdSetup_spec (pw : String) (waitErr : GoErr) (h : pw ≠ "") :
    rootPasswdSetup pw waitErr =
      ([Event.procStart "chpasswd",
        Event.pipeWrite ("root:" ++ pw ++ "\n"),
        Event.pipeClose,
        Event.procWait "chpasswd"],
       waitErr) := by
  simp [rootPasswdSetup, h]

/-- Witness for C9 at a concrete password and a failing exit. -/
theorem rootPasswdSetup_spec_witness :
    rootPasswdSetup "s3cret" (some "exit status 1") =
      ([Event.procStart "chpasswd",
        Event.pipeWrite "root:s3cret\n",
        Event.pipeClose,
        Event.procWait "chpasswd"],
       some "exit status 1") := by
  have h := rootPasswdSetup_spec "s3cret" (some "exit status 1") (by decide)
  exact h.trans (by decide)

/-- C6: a step whose applicability guard is false is a complete no-op:
with the MTA section absent, `mtaSetup` issues no external effect and
returns `nil`; with an empty scratch disk, `diskSetup` issues no
external effect and returns `nil` — whatever the environment. -/
theorem guardFalse_noop :
    (∀ envM : MTAEnv, mtaSetup none envM = ([], none)) ∧
    (∀ envD : DiskEnv, diskSetup "" envD = ([], none)) := by
  refine ⟨fun envM => rfl, fun envD => ?_⟩
  simp [diskSetup]

/-- Counterexample for C1: a run in which the config patch and the key
append succeed but the `sshd` restart fails — the step returns the
restart error instead of `nil`, so the restart failure is fatal, not
logged-only. -/
theorem sshdSetup_restartFatal_cex :
    sshdSetup [] ⟨none, ⟨none, fun _ => none⟩, some "restart failed"⟩ =
      ([Event.patchFile "/etc/ssh/sshd_config" " ",
        Event.service "sshd" SvcAction.RESTART],
       some "restart failed") ∧
    (sshdSetup [] ⟨none, ⟨none, fun _ => none⟩, some "restart failed"⟩).2
      ≠ none := by
  constructor
  · rfl
  · simp [sshdSetup, addSSHKeys]

/-- C1 (amended): a failure of the sshd service restart is fatal — when
the config patch and the key append succeed and the restart fails, the
step returns the restart error. -/
theorem sshdSetup_restart_error_returned (keys : List String) (env : SSHDEnv)
    (e : String)
    (h1 : env.patchConfig = none)
    (h2 : (addSSHKeys keys env.keysEnv).2 = none)
    (h3 : env.restart = some e) :
    (sshdSetup keys env).2 = some e := by
  rcases hA : addSSHKeys keys env.keysEnv with ⟨tk, rk⟩
  rw [hA] at h2
  simp only at h2
  subst h2
  simp [sshdSetup, h1, hA, h3]

/-- Witness for the amended C1. -/
theorem sshdSetup_restart_error_returned_witness :
    (sshdSetup ["ssh-rsa AAAA"]
      ⟨none, ⟨none, fun _ => none⟩, some "boom"⟩).2 = some "boom" :=
  sshdSetup_restart_error_returned ["ssh-rsa AAAA"]
    ⟨none, ⟨none, fun _ => none⟩, some "boom"⟩ "boom" rfl rfl rfl

/-- C8: when the process list is fetched successfully and no process
counts as a docker process, the disk-setup step never issues any
service request for the `docker` service — neither stop nor start. -/
theorem diskSetup_noDocker_noService (scratch : String) (env : DiskEnv)
    (ps : List String)
    (hp : env.procs = .ok ps)
    (hnd : ∀ p ∈ ps, isDockerProc p = false) :
    ∀ a, Event.service "docker" a ∉ (diskSetup scratch env).1 := by
  intro a
  have hAny : ps.any isDockerProc = false := by
    simp only [List.any_eq_false]
    intro p hpmem
    simp [hnd p hpmem]
  by_cases hs : scratch = ""
  · simp [diskSetup, hs]
  · simp only [diskSetup, hs, hp, if_neg hs]
    rcases env.setupDisk with _ | e
    · rcases hcs : env.catSwap with e' | out
      · simp [hAny, hcs, List.mem_map]
      · by_cases hc : containsSub scratch.data out.data
        · simp [hAny, hcs, hc, List.mem_map]
        · simp [hAny, hcs, hc, List.mem_map]
    · simp [hAny, List.mem_map]

/-- Witness for C8. -/
theorem diskSetup_noDocker_noService_witness :
    Event.service "docker" SvcAction.STOP ∉
      (diskSetup "/dev/sdb"
        ⟨.ok ["init", "sshd"], ["/var/lib/mnt"], none, .error "no swap"⟩).1 :=
  diskSetup_noDocker_noService "/dev/sdb"
    ⟨.ok ["init", "sshd"], ["/var/lib/mnt"], none, .error "no swap"⟩
    ["init", "sshd"] rfl (by decide) SvcAction.STOP

/-- Counterexample for C2: docker is detected and stopped, the external
disk-setup invocation fails — and no start/restart of the docker
service is issued: the step returns the error before the restart. -/
theorem diskSetup_restart_cex :
    (Event.service "docker" SvcAction.STOP ∈
      (diskSetup "/dev/sdb"
        ⟨.ok ["dockerd"], [], some "setup-disk failed", .error "x"⟩).1) ∧
    (Event.service "docker" SvcAction.START ∉
      (diskSetup "/dev/sdb"
        ⟨.ok ["dockerd"], [], some "setup-disk failed", .error "x"⟩).1) ∧
    (diskSetup "/dev/sdb"
        ⟨.ok ["dockerd"], [], some "setup-disk failed", .error "x"⟩).2 =
      some "setup-disk failed" := by
  refine ⟨by decide, by decide, by decide⟩

/-- C2 (amended): when a docker process was detected (and the service
stopped), the best-effort docker restart is issued exactly when the
external disk-setup invocation succeeds; when it fails, the step
returns that error and no restart is issued. -/
theorem diskSetup_restart_onSuccess (scratch : String) (env : DiskEnv)
    (ps : List String)
    (hs : scratch ≠ "") (hp : env.procs = .ok ps)
    (hd : ps.any isDockerProc = true) :
    (env.setupDisk = none →
      Event.service "docker" SvcAction.START ∈ (diskSetup scratch env).1) ∧
    (∀ e, env.setupDisk = some e →
      (diskSetup scratch env).2 = some e ∧
      Event.service "docker" SvcAction.START ∉ (diskSetup scratch env).1) := by
  constructor
  · intro hok
    simp only [diskSetup, hs, hp, if_neg hs, hok, hd]
    rcases hcs : env.catSwap with e' | out
    · simp [hcs]
    · by_cases hc : containsSub scratch.data out.data
      · simp [hcs, hc]
      · simp [hcs, hc]
  · intro e he
    simp only [diskSetup, hs, hp, if_neg hs, he, hd]
    refine ⟨rfl, ?_⟩
    simp [List.mem_map]

/-- Witness for the amended C2: both a succeeding and a failing
disk-setup invocation, with docker detected. -/
theorem diskSetup_restart_onSuccess_witness :
    (Event.service "docker" SvcAction.START ∈
      (diskSetup "/dev/vdb" ⟨.ok ["dockerd"], [], none, .error "x"⟩).1) ∧
    ((diskSetup "/dev/vdb" ⟨.ok ["dockerd"], [], some "fail", .error "x"⟩).2 =
        some "fail" ∧
      Event.service "docker" SvcAction.START ∉
        (diskSetup "/dev/vdb" ⟨.ok ["dockerd"], [], some "fail", .error "x"⟩).1) :=
  ⟨(diskSetup_restart_onSuccess "/dev/vdb"
      ⟨.ok ["dockerd"], [], none, .error "x"⟩ ["dockerd"]
      (by decide) rfl (by decide)).1 rfl,
   (diskSetup_restart_onSuccess "/dev/vdb"
      ⟨.ok ["dockerd"], [], some "fail", .error "x"⟩ ["dockerd"]
      (by decide) rfl (by decide)).2 "fail" rfl⟩

/-- C5: in file materialization, a failure of the content write itself
is logged and does not abort the remaining descriptors (first
conjunct: with inline content, no owner and a failing write, processing
continues with `rest` and the overall result is `rest`'s result); but a
failure of the ownership change after the write is fatal (second
conjunct: with an owner set and a failing `chown`, the step returns
that error at once and no event of `rest` is issued). -/
theorem createFiles_writeLenient_chownFatal :
    (∀ (wf : WriteFile) (env : FileEnv) (rest : List (WriteFile × FileEnv))
        (perm : Nat) (e : String),
      parseUintOct32 wf.permissions = some perm →
      env.mkdir = none → wf.content ≠ "" → wf.owner = "" →
      env.write = some e →
      createFiles ((wf, env) :: rest) =
        ([Event.mkdirParents wf.path,
          Event.fileWrite wf.path wf.content.data perm,
          Event.logError e] ++ (createFiles rest).1,
         (createFiles rest).2)) ∧
    (∀ (wf : WriteFile) (env : FileEnv) (rest : List (WriteFile × FileEnv))
        (perm : Nat) (e : String),
      parseUintOct32 wf.permissions = some perm →
      env.mkdir = none → wf.content ≠ "" → wf.owner ≠ "" →
      env.chown = some e →
      createFiles ((wf, env) :: rest) = ((createFile1 wf env).1, some e)) := by
  constructor
  · intro wf env rest perm e hperm hmk hc ho hw
    have h1 : createFile1 wf env =
        ([Event.mkdirParents wf.path,
          Event.fileWrite wf.path wf.content.data perm,
          Event.logError e], none) := by
      simp [createFile1, hperm, hmk, hc, ho, hw]
    rcases hR : createFiles rest with ⟨t', r'⟩
    simp [createFiles, h1, hR]
  · intro wf env rest perm e hperm hmk hc ho hch
    have h1 : (createFile1 wf env).2 = some e := by
      simp [createFile1, hperm, hmk, hc, ho, hch]
    rcases hF : createFile1 wf env with ⟨t, r⟩
    rw [hF] at h1
    simp only at h1
    subst h1
    simp [createFiles, hF]

/-- Witness for C5: one failing write with a second descriptor still
processed, and one failing chown aborting before a second
descriptor. -/
theorem createFiles_writeLenient_chownFatal_witness :
    createFiles
      [(⟨"/etc/a", "644", "x", "", ""⟩, ⟨none, .error "unused", some "disk full", none⟩),
       (⟨"/etc/b", "600", "y", "", ""⟩, ⟨none, .error "unused", none, none⟩)] =
      ([Event.mkdirParents "/etc/a",
        Event.fileWrite "/etc/a" ['x'] 420,
        Event.logError "disk full",
        Event.mkdirParents "/etc/b",
        Event.fileWrite "/etc/b" ['y'] 384],
       none) ∧
    createFiles
      [(⟨"/etc/a", "644", "x", "", "root:root"⟩, ⟨none, .error "unused", none, some "no such user"⟩),
       (⟨"/etc/b", "600", "y", "", ""⟩, ⟨none, .error "unused", none, none⟩)] =
      ([Event.mkdirParents "/etc/a",
        Event.fileWrite "/etc/a" ['x'] 420,
        Event.execCmd "chown" ["root:root", "/etc/a"]],
       some "no such user") := by
  constructor
  · have h := createFiles_writeLenient_chownFatal.1
      ⟨"/etc/a", "644", "x", "", ""⟩ ⟨none, .error "unused", some "disk full", none⟩
      [(⟨"/etc/b", "600", "y", "", ""⟩, ⟨none, .error "unused", none, none⟩)]
      420 "disk full" (by decide) rfl (by decide) rfl rfl
    exact h.trans (by decide)
  · have h := createFiles_writeLenient_chownFatal.2
      ⟨"/etc/a", "644", "x", "", "root:root"⟩
      ⟨none, .error "unused", none, some "no such user"⟩
      [(⟨"/etc/b", "600", "y", "", ""⟩, ⟨none, .error "unused", none, none⟩)]
      420 "no such user" (by decide) rfl (by decide) (by decide) rfl
    exact h.trans (by decide)

/-- C10: in file materialization, a permissions string that does not
parse as base-8 (first conjunct) or a failing ContentURL download
(second conjunct) makes the step return that error immediately, with
none of the remaining descriptors processed. -/
theorem createFiles_parseDownloadFatal :
    (∀ (wf : WriteFile) (env : FileEnv) (rest : List (WriteFile × FileEnv)),
      parseUintOct32 wf.permissions = none →
      createFiles ((wf, env) :: rest) = ([], some "Error reading permissions")) ∧
    (∀ (wf : WriteFile) (env : FileEnv) (rest : List (WriteFile × FileEnv))
        (perm : Nat) (e : String),
      parseUintOct32 wf.permissions = some perm →
      env.mkdir = none → wf.content = "" → wf.contentURL ≠ "" →
      env.download = .error e →
      createFiles ((wf, env) :: rest) =
        ([Event.mkdirParents wf.path, Event.download wf.contentURL], some e)) := by
  constructor
  · intro wf env rest hperm
    have h1 : createFile1 wf env = ([], some "Error reading permissions") := by
      simp [createFile1, hperm]
    simp [createFiles, h1]
  · intro wf env rest perm e hperm hmk hc hurl hdl
    have h1 : createFile1 wf env =
        ([Event.mkdirParents wf.path, Event.download wf.contentURL], some e) := by
      simp [createFile1, hperm, hmk, hc, hurl, hdl]
    simp [createFiles, h1]

/-- Witness for C10: a malformed permissions string aborts at once; a
failing download aborts at once; in both runs a second descriptor is
pending and untouched. -/
theorem createFiles_parseDownloadFatal_witness :
    createFiles
      [(⟨"/etc/a", "0g44", "x", "", ""⟩, ⟨none, .error "unused", none, none⟩),
       (⟨"/etc/b", "600", "y", "", ""⟩, ⟨none, .error "unused", none, none⟩)] =
      ([], some "Error reading permissions") ∧
    createFiles
      [(⟨"/etc/a", "644", "", "http://x/f", ""⟩, ⟨none, .error "404", none, none⟩),
       (⟨"/etc/b", "600", "y", "", ""⟩, ⟨none, .error "unused", none, none⟩)] =
      ([Event.mkdirParents "/etc/a", Event.download "http://x/f"], some "404") :=
  ⟨createFiles_parseDownloadFatal.1
      ⟨"/etc/a", "0g44", "x", "", ""⟩ ⟨none, .error "unused", none, none⟩
      [(⟨"/etc/b", "600", "y", "", ""⟩, ⟨none, .error "unused", none, none⟩)]
      (by decide),
   createFiles_parseDownloadFatal.2
      ⟨"/etc/a", "644", "", "http://x/f", ""⟩ ⟨none, .error "404", none, none⟩
      [(⟨"/etc/b", "600", "y", "", ""⟩, ⟨none, .error "unused", none, none⟩)]
      420 "404" (by decide) rfl rfl (by decide) rfl⟩

/-! ### Directive Patcher lemmas -/

/-- A successful `lookupKV` result is a pair of the mapping. -/
theorem lookupKV_mem (l : List (Line × Line)) (k v : Line)
    (h : lookupKV k l = some v) : (k, v) ∈ l := by
  induction l with
  | nil => simp [lookupKV] at h
  | cons kv rest ih =>
    obtain ⟨k', v'⟩ := kv
    by_cases hk : k' = k
    · simp only [lookupKV, if_pos hk] at h
      injection h with h
      subst hk; subst h
      exact List.mem_cons_self _ _
    · simp only [lookupKV, if_neg hk] at h
      exact List.mem_cons_of_mem _ (ih h)

/-- When the keys of a mapping are distinct, every pair of it is found
by `lookupKV`. -/
theorem mem_lookupKV (l : List (Line × Line)) (k v : Line)
    (hnd : (l.map Prod.fst).Nodup) (h : (k, v) ∈ l) :
    lookupKV k l = some v := by
  induction l with
  | nil => simp at h
  | cons kv rest ih =>
    obtain ⟨k', v'⟩ := kv
    simp only [List.map_cons, List.nodup_cons] at hnd
    rcases List.mem_cons.mp h with heq | hmem
    · injection heq with h1 h2
      subst h1; subst h2
      simp [lookupKV]
    · have hk : k' ≠ k := by
        intro hkk
        exact hnd.1 (hkk ▸ List.mem_map_of_mem Prod.fst hmem)
      simp only [lookupKV, if_neg hk]
      exact ih hnd.2 hmem

/-- Inversion of a successful `lineMatch`: the matched key is not yet
applied and looks up to the matched value. -/
theorem lineMatch_some_facts {D : Line} {desired : List (Line × Line)}
    {applied : List Line} {l : Line} {kv : Line × Line}
    (h : lineMatch D desired applied l = some kv) :
    kv.1 ∉ applied ∧ lookupKV kv.1 desired = some kv.2 := by
  unfold lineMatch at h
  split at h
  · exact absurd h (by simp)
  · split at h
    · exact absurd h (by simp)
    · split at h
      · exact absurd h (by simp)
      · next hmem =>
        split at h
        · next v hv =>
          injection h with h
          subst h
          exact ⟨hmem, hv⟩
        · exact absurd h (by simp)

/-- A replacement line matches its own key again: under a non-empty
delimiter, if the patched line splits back into its own key and value,
and the key is unapplied and present in the mapping, `lineMatch`
rewrites the patched line to itself. -/
theorem lineMatch_patched {D : Line} {desired : List (Line × Line)}
    {applied : List Line} {kv : Line × Line}
    (Hne : D ≠ [])
    (h1 : kv.1 ∉ applied) (h2 : lookupKV kv.1 desired = some kv.2)
    (hsp : splitFirst D (patchedLine D kv) = some kv) :
    lineMatch D desired applied (patchedLine D kv) = some kv := by
  have hne : patchedLine D kv ≠ [] := by
    intro hnil
    simp only [patchedLine, List.append_eq_nil] at hnil
    exact Hne hnil.1.2
  unfold lineMatch
  rw [if_neg hne, hsp]
  simp only [if_neg h1, h2]

/-- The scan distributes over list append, threading the applied-key
set. -/
theorem patchScan_append (D : Line) (desired : List (Line × Line))
    (xs ys app : List Line) :
    patchScan D desired (xs ++ ys) app =
      ((patchScan D desired xs app).1 ++
        (patchScan D desired ys (patchScan D desired xs app).2).1,
       (patchScan D desired ys (patchScan D desired xs app).2).2) := by
  induction xs generalizing app with
  | nil => simp [patchScan]
  | cons x xs ih =>
    cases h : lineMatch D desired app x with
    | none => simp [patchScan, h, ih]
    | some kv => simp [patchScan, h, ih]

/-- Re-scanning the scan's own output from the same applied-key set
reproduces the output and the final applied-key set: every rewritten
line matches its own key again and is rewritten to itself, every
copied line is copied again. -/
theorem patchScan_self {D : Line} {desired : List (Line × Line)}
    (Hne : D ≠ [])
    (Hsplit : ∀ kv ∈ desired, splitFirst D (patchedLine D kv) = some kv)
    (ls : List Line) :
    ∀ app : List Line,
      patchScan D desired (patchScan D desired ls app).1 app =
        patchScan D desired ls app := by
  induction ls with
  | nil => intro app; simp [patchScan]
  | cons l ls ih =>
    intro app
    cases h : lineMatch D desired app l with
    | none =>
      simp only [patchScan, h]
      simp [patchScan, h, ih app]
    | some kv =>
      have hf := lineMatch_some_facts h
      have hmem : (kv.1, kv.2) ∈ desired := lookupKV_mem _ _ _ hf.2
      have hm2 : lineMatch D desired app (patchedLine D kv) = some kv :=
        lineMatch_patched Hne hf.1 hf.2 (Hsplit kv hmem)
      simp only [patchScan, h]
      simp [patchScan, hm2, ih (kv.1 :: app)]

/-- Scanning the appended replacement lines of pending pairs (keys
distinct, none applied yet, each found by lookup, each splitting back
to itself) reproduces them and applies all their keys. -/
theorem patchScan_pending {D : Line} {desired : List (Line × Line)}
    (Hne : D ≠ []) :
    ∀ (pend : List (Line × Line)) (app : List Line),
      (∀ kv ∈ pend, splitFirst D (patchedLine D kv) = some kv) →
      (pend.map Prod.fst).Nodup →
      (∀ kv ∈ pend, kv.1 ∉ app) →
      (∀ kv ∈ pend, lookupKV kv.1 desired = some kv.2) →
      patchScan D desired (pend.map (patchedLine D)) app =
        (pend.map (patchedLine D), pend.reverse.map Prod.fst ++ app) := by
  intro pend
  induction pend with
  | nil => intro app _ _ _ _; simp [patchScan]
  | cons kv pend ih =>
    intro app hsp hnd hnotin hlk
    have hm : lineMatch D desired app (patchedLine D kv) = some kv :=
      lineMatch_patched Hne (hnotin kv (by simp)) (hlk kv (by simp))
        (hsp kv (by simp))
    simp only [List.map_cons, List.nodup_cons] at hnd
    have hrec := ih (kv.1 :: app)
      (fun x hx => hsp x (by simp [hx]))
      hnd.2
      (fun x hx => by
        simp only [List.mem_cons, not_or]
        refine ⟨?_, hnotin x (by simp [hx])⟩
        intro hxk
        exact hnd.1 (hxk ▸ List.mem_map_of_mem Prod.fst hx))
      (fun x hx => hlk x (by simp [hx]))
    simp [patchScan, hm, hrec, List.map_append]

/-- C7 (amended): the Directive Patcher is idempotent — its first run's
output is a fixed point of a second run with the same mapping —
provided that the delimiter is non-empty, that each replacement line
`key ++ delimiter ++ value` splits back on the first delimiter
occurrence into exactly that key and value (which holds in particular
whenever no key contains, or overlaps into, the delimiter), and that
the mapping's keys are distinct (as the spec requires). -/
theorem patchLines_idem (D : Line) (desired : List (Line × Line))
    (ls : List Line)
    (Hne : D ≠ [])
    (Hsplit : ∀ kv ∈ desired, splitFirst D (patchedLine D kv) = some kv)
    (Hnd : (desired.map Prod.fst).Nodup) :
    patchLines D desired (patchLines D desired ls) =
      patchLines D desired ls := by
  have hA := patchScan_self Hne Hsplit ls []
  have hPsub : ∀ kv ∈ desired.filter
      (fun kv => decide (kv.1 ∉ (patchScan D desired ls []).2)), kv ∈ desired :=
    fun kv hkv => List.mem_of_mem_filter hkv
  have hPnd : ((desired.filter
      (fun kv => decide (kv.1 ∉ (patchScan D desired ls []).2))).map
        Prod.fst).Nodup :=
    Hnd.sublist (List.Sublist.map Prod.fst (List.filter_sublist desired))
  have hPnotin : ∀ kv ∈ desired.filter
      (fun kv => decide (kv.1 ∉ (patchScan D desired ls []).2)),
      kv.1 ∉ (patchScan D desired ls []).2 := by
    intro kv hkv
    have := (List.mem_filter.mp hkv).2
    exact of_decide_eq_true this
  have hB := patchScan_pending Hne
    (desired.filter (fun kv => decide (kv.1 ∉ (patchScan D desired ls []).2)))
    (patchScan D desired ls []).2
    (fun kv hkv => Hsplit kv (hPsub kv hkv))
    hPnd
    hPnotin
    (fun kv hkv => mem_lookupKV desired kv.1 kv.2 Hnd (hPsub kv hkv))
  have hfilter2 : desired.filter
      (fun kv => decide (kv.1 ∉
        ((desired.filter
          (fun kv => decide (kv.1 ∉ (patchScan D desired ls []).2))).reverse.map
            Prod.fst ++ (patchScan D desired ls []).2))) = [] := by
    rw [List.filter_eq_nil_iff]
    intro kv hkv
    simp only [decide_eq_true_eq, not_not, List.mem_append, List.mem_map,
      List.mem_reverse, not_forall, not_exists]
    by_cases hin : kv.1 ∈ (patchScan D desired ls []).2
    · simp [hin]
    · left
      refine ⟨kv, ?_, rfl⟩
      exact List.mem_filter.mpr ⟨hkv, by simpa using hin⟩
  conv_lhs => rw [patchLines, patchLines, patchScan_append, hA, hB]
  simp only [hfilter2, List.map_nil, List.append_nil]
  rw [patchLines]

/-- Counterexample for C7 as stated for *any* mapping: with delimiter
`" "` and the single desired directive `"A B"` (a key containing the
delimiter) over an empty file, the first run appends `"A B v"`, but the
second run splits that line at its first space into directive `"A"`,
never matches the key `"A B"`, and appends the line again — the first
run's output is not a fixed point. -/
theorem patchLines_idem_cex :
    patchLines [' '] [(['A', ' ', 'B'], ['v'])]
        (patchLines [' '] [(['A', ' ', 'B'], ['v'])] []) ≠
      patchLines [' '] [(['A', ' ', 'B'], ['v'])] [] := by
  decide

/-- Witness for the amended C7: a delimiter-free key, patched over a
file that already holds a line for it plus an unrelated line. -/
theorem patchLines_idem_witness :
    patchLines [' '] [(['K'], ['v'])]
        (patchLines [' '] [(['K'], ['v'])] [['K', ' ', 'x'], ['o']]) =
      patchLines [' '] [(['K'], ['v'])] [['K', ' ', 'x'], ['o']] :=
  patchLines_idem [' '] [(['K'], ['v'])] [['K', ' ', 'x'], ['o']]
    (by decide) (by decide) (by decide)
